import Mathlib

/-!
Verification of the twiggy game bot (src/src/commands/duel.rs and
src/src/commands/dino/commands.rs) against its specification.

Machine integers are modelled as Int or Nat (none of the modelled arithmetic
overflows in the source ranges), times as Int seconds, SQL rows as structures,
and fallible or panicking code as Option.
-/

namespace Twiggy

/-! ## Constants from src/src/commands/dino/commands.rs -/

def MAX_GENERATION_ATTEMPTS : Nat := 20

def MAX_FAILED_HATCHES : Int := 3

/-- HATCH_COOLDOWN (commands.rs line 51) is 10 seconds; times are modelled in
seconds. -/
def HATCH_COOLDOWN_SECS : Int := 10

/-! ## Hatch cooldown gate and pity counter (commands.rs, hatch, lines 88-119) -/

/-- A DinoUser row as read by get_user_record (commands.rs 447-464): last_hatch
and consecutive_fails. -/
structure DinoUserRecord where
  last_hatch : Int
  consecutive_fails : Int
deriving Repr, DecidableEq

/-- From hatch (commands.rs line 94): the attempt is rejected when
last_hatch + hatch_cooldown_duration > now, in which case the command returns
before the roll, before generation and before any persistence. -/
def hatchOnCooldown (last_hatch now : Int) : Bool :=
  last_hatch + HATCH_COOLDOWN_SECS > now

/-- From hatch (commands.rs line 103): the failed-hatch branch (which
increments consecutive_fails and returns without generating) is taken when
hatch_roll <= MAX_FAILED_HATCHES - consecutive_fails. -/
def hatchFailBranch (consecutive_fails hatch_roll : Int) : Bool :=
  hatch_roll ≤ MAX_FAILED_HATCHES - consecutive_fails

/-- Modelled from the spec: pick_best_x_dice_rolls lives in src/common.rs,
which is not among the provided sources. The spec describes the hatch roll as
a dice roll (a weighted random value compared against cap - counter), and a
dice roll takes values from 1 upward. -/
def hatchRollPossible (r : Int) : Prop := 1 ≤ r

/-- From update_failed_hatches (commands.rs 303-312): a failed hatch attempt
only increments consecutive_fails; last_hatch is not modified. -/
def update_failed_hatches (u : DinoUserRecord) : DinoUserRecord :=
  { u with consecutive_fails := u.consecutive_fails + 1 }

/-- From insert_dino (commands.rs 491-499): a successful hatch sets the user
row to last_hatch = now and consecutive_fails = 0. -/
def recordSuccessfulHatch (_u : DinoUserRecord) (now : Int) : DinoUserRecord :=
  { last_hatch := now, consecutive_fails := 0 }

/-! ## Duel statistics (src/src/commands/duel.rs) -/

/-- A DuelStats row (duel.rs 261-271). -/
structure DuelStats where
  wins : Int
  losses : Int
  draws : Int
  win_streak : Int
  loss_streak : Int
  win_streak_max : Int
  loss_streak_max : Int
deriving Repr, DecidableEq

/-- From update_users_win_loss (duel.rs 216-231), winner half: when the user
has no DuelStats row yet, insert wins = 1, win_streak = 1, win_streak_max = 1
with the remaining columns at their 0 default; on conflict update wins + 1,
win_streak + 1, win_streak_max = MAX(win_streak_max, win_streak + 1),
loss_streak = 0. -/
def winnerUpsert : Option DuelStats → DuelStats
  | none =>
    { wins := 1, losses := 0, draws := 0, win_streak := 1, loss_streak := 0,
      win_streak_max := 1, loss_streak_max := 0 }
  | some s =>
    { s with
      wins := s.wins + 1
      win_streak := s.win_streak + 1
      win_streak_max := max s.win_streak_max (s.win_streak + 1)
      loss_streak := 0 }

/-- From update_users_win_loss (duel.rs 216-231), loser half: insert
losses = 1, loss_streak = 1, loss_streak_max = 1, or on conflict update
losses + 1, loss_streak + 1, loss_streak_max = MAX(loss_streak_max,
loss_streak + 1), win_streak = 0. -/
def loserUpsert : Option DuelStats → DuelStats
  | none =>
    { wins := 0, losses := 1, draws := 0, win_streak := 0, loss_streak := 1,
      win_streak_max := 0, loss_streak_max := 1 }
  | some s =>
    { s with
      losses := s.losses + 1
      loss_streak := s.loss_streak + 1
      loss_streak_max := max s.loss_streak_max (s.loss_streak + 1)
      win_streak := 0 }

/-- From update_users_drawn (duel.rs 242-259): insert draws = 1, or on
conflict update draws + 1, win_streak = 0, loss_streak = 0. -/
def drawUpsert : Option DuelStats → DuelStats
  | none =>
    { wins := 0, losses := 0, draws := 1, win_streak := 0, loss_streak := 0,
      win_streak_max := 0, loss_streak_max := 0 }
  | some s =>
    { s with draws := s.draws + 1, win_streak := 0, loss_streak := 0 }

/-- From run_duel (duel.rs 83-108): dispatch on
challenger_score.cmp(accepter_score); Greater updates challenger as winner
and accepter as loser, Less the other way around, Equal records a draw for
both. Each row argument is the DuelStats row of that user, if present. -/
def run_duel_update (challenger_score accepter_score : Nat)
    (challenger accepter : Option DuelStats) : DuelStats × DuelStats :=
  match compare challenger_score accepter_score with
  | Ordering.gt => (winnerUpsert challenger, loserUpsert accepter)
  | Ordering.lt => (loserUpsert challenger, winnerUpsert accepter)
  | Ordering.eq => (drawUpsert challenger, drawUpsert accepter)

/-- Possible recorded outcomes for one user in one resolved duel. -/
inductive DuelOutcome
  | win
  | loss
  | draw
deriving Repr, DecidableEq

/-- The upsert applied to one user DuelStats row for one recorded outcome,
combining the per-user halves of update_users_win_loss and
update_users_drawn. -/
def applyOutcome (r : Option DuelStats) : DuelOutcome → DuelStats
  | DuelOutcome.win => winnerUpsert r
  | DuelOutcome.loss => loserUpsert r
  | DuelOutcome.draw => drawUpsert r

/-- The DuelStats row of a user after a sequence of recorded outcomes,
starting from no row (the row is created lazily by the first upsert). -/
def applyOutcomes (outcomes : List DuelOutcome) : Option DuelStats :=
  outcomes.foldl (fun r o => some (applyOutcome r o)) none

/-- The property claimed by the spec for every reachable DuelStats row:
exactly one of win_streak and loss_streak is nonzero. -/
def exactlyOneStreak (s : DuelStats) : Prop :=
  (s.win_streak ≠ 0 ∧ s.loss_streak = 0) ∨ (s.win_streak = 0 ∧ s.loss_streak ≠ 0)

instance : DecidablePred exactlyOneStreak := fun s => by
  unfold exactlyOneStreak; infer_instance

/-! ## Claim C3: the pity cap forces success -/

/-- C3: with consecutive_fails = MAX_FAILED_HATCHES (3), no possible hatch
roll takes the failure branch, while at consecutive_fails = 2 there is a
possible roll for which the attempt still fails. -/
theorem hatch_pity_cap_forces_success :
    (∀ r : Int, hatchRollPossible r →
      hatchFailBranch MAX_FAILED_HATCHES r = false) ∧
    (∃ r : Int, hatchRollPossible r ∧
      hatchFailBranch (MAX_FAILED_HATCHES - 1) r = true) := by
  constructor
  · intro r hr
    simp only [hatchRollPossible] at hr
    simp only [hatchFailBranch, MAX_FAILED_HATCHES, decide_eq_false_iff_not, not_le]
    omega
  · exact ⟨1, by norm_num [hatchRollPossible], by decide⟩

/-- Witness for C3: the roll 4 is possible and does not fail at the cap. -/
theorem hatch_pity_cap_forces_success_witness :
    hatchFailBranch MAX_FAILED_HATCHES 4 = false :=
  hatch_pity_cap_forces_success.1 4 (by norm_num [hatchRollPossible])

/-! ## Claim C7: hatch cooldown gate and its reference event -/

/-- Counterexample for C7: the claim measures the cooldown from the last
successful or attempted hatch, but update_failed_hatches leaves last_hatch
unchanged, so an attempt 2 seconds after a failed attempt at time 100 (user
row created at last_hatch = 0) passes the gate even though it is strictly
less than 10 seconds after that attempted hatch. -/
theorem hatch_cooldown_ignores_failed_attempts :
    (update_failed_hatches { last_hatch := 0, consecutive_fails := 0 }).last_hatch = 0 ∧
    hatchOnCooldown
      (update_failed_hatches { last_hatch := 0, consecutive_fails := 0 }).last_hatch 102 = false ∧
    (102 : Int) < 100 + HATCH_COOLDOWN_SECS := by
  refine ⟨rfl, by decide, by decide⟩

/-- C7 as amended: the cooldown runs from the last successful hatch. An
attempt strictly less than HATCH_COOLDOWN_SECS after the successful hatch at
time t is rejected by the gate, and an attempt at or after t +
HATCH_COOLDOWN_SECS passes it (the boundary instant is allowed). -/
theorem hatch_cooldown_boundary (u : DinoUserRecord) (t now : Int) :
    (now < t + HATCH_COOLDOWN_SECS →
      hatchOnCooldown (recordSuccessfulHatch u t).last_hatch now = true) ∧
    (t + HATCH_COOLDOWN_SECS ≤ now →
      hatchOnCooldown (recordSuccessfulHatch u t).last_hatch now = false) := by
  simp only [hatchOnCooldown, recordSuccessfulHatch, decide_eq_true_eq,
    decide_eq_false_iff_not, not_lt]
  omega

/-- Witness for C7: a hatch at time 3 blocks an attempt at time 12 and allows
one at time 13. -/
theorem hatch_cooldown_boundary_witness :
    hatchOnCooldown
      (recordSuccessfulHatch { last_hatch := 0, consecutive_fails := 0 } 3).last_hatch 12 = true ∧
    hatchOnCooldown
      (recordSuccessfulHatch { last_hatch := 0, consecutive_fails := 0 } 3).last_hatch 13 = false :=
  ⟨(hatch_cooldown_boundary { last_hatch := 0, consecutive_fails := 0 } 3 12).1 (by decide),
   (hatch_cooldown_boundary { last_hatch := 0, consecutive_fails := 0 } 3 13).2 (by decide)⟩

/-! ## Claim C6: the duel outcome update -/

/-- C6: the duel outcome update is the claimed pure function of the score
pair. With both DuelStats rows present: a strictly greater challenger score
increments the challenger wins and win_streak, resets the challenger
loss_streak, tracks win_streak_max as the maximum of its old value and the
new streak, and updates the accepter losses and loss_streak symmetrically
with win_streak reset to 0; strictly less is the mirror image; equal scores
increment both draws and reset all four streak counters. -/
theorem run_duel_update_correct (cs as : Nat) (c a : DuelStats) :
    (as < cs →
      run_duel_update cs as (some c) (some a) =
        ({ c with
            wins := c.wins + 1
            win_streak := c.win_streak + 1
            win_streak_max := max c.win_streak_max (c.win_streak + 1)
            loss_streak := 0 },
         { a with
            losses := a.losses + 1
            loss_streak := a.loss_streak + 1
            loss_streak_max := max a.loss_streak_max (a.loss_streak + 1)
            win_streak := 0 })) ∧
    (cs < as →
      run_duel_update cs as (some c) (some a) =
        ({ c with
            losses := c.losses + 1
            loss_streak := c.loss_streak + 1
            loss_streak_max := max c.loss_streak_max (c.loss_streak + 1)
            win_streak := 0 },
         { a with
            wins := a.wins + 1
            win_streak := a.win_streak + 1
            win_streak_max := max a.win_streak_max (a.win_streak + 1)
            loss_streak := 0 })) ∧
    (cs = as →
      run_duel_update cs as (some c) (some a) =
        ({ c with draws := c.draws + 1, win_streak := 0, loss_streak := 0 },
         { a with draws := a.draws + 1, win_streak := 0, loss_streak := 0 })) := by
  refine ⟨fun h => ?_, fun h => ?_, fun h => ?_⟩
  · simp [run_duel_update, Nat.compare_eq_gt.mpr h, winnerUpsert, loserUpsert]
  · simp [run_duel_update, Nat.compare_eq_lt.mpr h, winnerUpsert, loserUpsert]
  · simp [run_duel_update, Nat.compare_eq_eq.mpr h, drawUpsert]

/-- Witness for C6, at the spec example scores 80 and 42: the challenger with
a 2-win streak moves to 3 wins of streak and the accepter with a 1-win streak
drops to a loss streak of 1. -/
theorem run_duel_update_correct_witness :
    run_duel_update 80 42
      (some { wins := 2, losses := 0, draws := 0, win_streak := 2,
              loss_streak := 0, win_streak_max := 2, loss_streak_max := 0 })
      (some { wins := 1, losses := 0, draws := 0, win_streak := 1,
              loss_streak := 0, win_streak_max := 1, loss_streak_max := 0 }) =
      ({ wins := 3, losses := 0, draws := 0, win_streak := 3,
         loss_streak := 0, win_streak_max := 3, loss_streak_max := 0 },
       { wins := 1, losses := 1, draws := 0, win_streak := 0,
         loss_streak := 1, win_streak_max := 1, loss_streak_max := 1 }) := by
  have h :=
    (run_duel_update_correct 80 42
      { wins := 2, losses := 0, draws := 0, win_streak := 2,
        loss_streak := 0, win_streak_max := 2, loss_streak_max := 0 }
      { wins := 1, losses := 0, draws := 0, win_streak := 1,
        loss_streak := 0, win_streak_max := 1, loss_streak_max := 0 }).1
    (by norm_num)
  simpa using h

/-! ## Claim C8: streak invariant for reachable DuelStats rows -/

/-- Counterexample for C8: after the single recorded outcome draw, the
reachable DuelStats row has win_streak = 0 and loss_streak = 0, so it is not
the case that exactly one of the two streaks is nonzero. -/
theorem streak_invariant_fails_after_draw :
    applyOutcomes [DuelOutcome.draw] =
      some { wins := 0, losses := 0, draws := 1, win_streak := 0,
             loss_streak := 0, win_streak_max := 0, loss_streak_max := 0 } ∧
    ¬ exactlyOneStreak
      { wins := 0, losses := 0, draws := 1, win_streak := 0,
        loss_streak := 0, win_streak_max := 0, loss_streak_max := 0 } := by
  exact ⟨rfl, by decide⟩

theorem applyOutcome_streak (r : Option DuelStats) (o : DuelOutcome) :
    (applyOutcome r o).win_streak = 0 ∨ (applyOutcome r o).loss_streak = 0 := by
  cases o <;> cases r <;>
    simp [applyOutcome, winnerUpsert, loserUpsert, drawUpsert]

theorem applyOutcomes_foldl_streak (l : List DuelOutcome) (r : Option DuelStats)
    (hr : ∀ t, r = some t → t.win_streak = 0 ∨ t.loss_streak = 0) :
    ∀ t, l.foldl (fun r o => some (applyOutcome r o)) r = some t →
      t.win_streak = 0 ∨ t.loss_streak = 0 := by
  induction l generalizing r with
  | nil => simpa using hr
  | cons o l ih =>
    intro t ht
    refine ih (some (applyOutcome r o)) ?_ t ht
    intro u hu
    cases hu
    exact applyOutcome_streak r o

/-- C8 as amended: for every reachable DuelStats row (after any sequence of
recorded outcomes starting from the lazily created row), at most one of
win_streak and loss_streak is nonzero — never both, so the unreachable arm of
DuelStats current_streak is indeed never hit; a draw leaves both at zero. -/
theorem streak_invariant_at_most_one (l : List DuelOutcome) (s : DuelStats)
    (h : applyOutcomes l = some s) :
    ¬ (s.win_streak ≠ 0 ∧ s.loss_streak ≠ 0) := by
  have := applyOutcomes_foldl_streak l none (by intro t ht; cases ht) s h
  tauto

/-- Witness for C8: the row reached by a single win satisfies the invariant. -/
theorem streak_invariant_at_most_one_witness :
    ¬ (({ wins := 1, losses := 0, draws := 0, win_streak := 1,
          loss_streak := 0, win_streak_max := 1, loss_streak_max := 0 } : DuelStats).win_streak ≠ 0 ∧
       ({ wins := 1, losses := 0, draws := 0, win_streak := 1,
          loss_streak := 0, win_streak_max := 1, loss_streak_max := 0 } : DuelStats).loss_streak ≠ 0) :=
  streak_invariant_at_most_one [DuelOutcome.win] _ rfl

/-! ## The generation loop (commands.rs, generate_dino, lines 314-333) -/

/-- A persisted part tuple (body, mouth, eyes file names). -/
abbrev PartTuple := String × String × String

/-- From generate_dino (commands.rs 314-333). The loop samples choose_parts
(modelled by the stream sample of rng results, attempt k drawing sample k),
checks are_parts_duplicate against the persisted tuples db, and returns the
first non-duplicate sample; after a duplicate it increments tries and gives
up once tries > MAX_GENERATION_ATTEMPTS. The source counter tries is kept,
and the loop guard tries + 1 > MAX_GENERATION_ATTEMPTS is carried by the
structurally decreasing remaining budget MAX_GENERATION_ATTEMPTS - tries,
which is 0 exactly when the guard fires. The second component is the total
number of sampling attempts performed. -/
def generateDinoLoop (db : List PartTuple) (sample : Nat → PartTuple) :
    Nat → Nat → Option PartTuple × Nat
  | tries, budget =>
    let generated := sample tries
    if generated ∈ db then
      match budget with
      | 0 => (none, tries + 1)
      | b + 1 => generateDinoLoop db sample (tries + 1) b
    else (some generated, tries + 1)

/-- From generate_dino (commands.rs 314-333): the loop entered with
tries = 0, so with remaining budget MAX_GENERATION_ATTEMPTS. -/
def generate_dino (db : List PartTuple) (sample : Nat → PartTuple) :
    Option PartTuple × Nat :=
  generateDinoLoop db sample 0 MAX_GENERATION_ATTEMPTS

theorem generateDinoLoop_attempts_le (db : List PartTuple)
    (sample : Nat → PartTuple) (budget tries : Nat) :
    (generateDinoLoop db sample tries budget).2 ≤ tries + budget + 1 := by
  induction budget generalizing tries with
  | zero =>
    unfold generateDinoLoop
    dsimp only
    split
    · simp
    · simp
  | succ b ih =>
    unfold generateDinoLoop
    dsimp only
    split
    · have := ih (tries + 1)
      omega
    · omega

theorem generateDinoLoop_all_dup (db : List PartTuple)
    (sample : Nat → PartTuple) (hdup : ∀ k, sample k ∈ db)
    (budget tries : Nat) :
    generateDinoLoop db sample tries budget = (none, tries + budget + 1) := by
  induction budget generalizing tries with
  | zero =>
    unfold generateDinoLoop
    simp [hdup tries]
  | succ b ih =>
    unfold generateDinoLoop
    simp only [hdup tries, if_pos]
    have := ih (tries + 1)
    simp only [this]
    congr 1
    omega

theorem generateDinoLoop_first_fresh (db : List PartTuple)
    (sample : Nat → PartTuple) (budget : Nat) :
    ∀ tries k, tries ≤ k → k ≤ tries + budget → sample k ∉ db →
      (∀ j, tries ≤ j → j < k → sample j ∈ db) →
      generateDinoLoop db sample tries budget = (some (sample k), k + 1) := by
  induction budget with
  | zero =>
    intro tries k h1 h2 hk _hj
    have hk0 : k = tries := by omega
    subst hk0
    unfold generateDinoLoop
    simp [hk]
  | succ b ih =>
    intro tries k h1 h2 hk hj
    unfold generateDinoLoop
    dsimp only
    by_cases hmem : sample tries ∈ db
    · have hne : tries ≠ k := by
        intro h; exact hk (h ▸ hmem)
      simp only [hmem, if_pos]
      exact ih (tries + 1) k (by omega) (by omega) hk
        (fun j hj1 hj2 => hj j (by omega) hj2)
    · have hke : k = tries := by
        by_contra hne
        exact hmem (hj tries (le_refl tries) (by omega))
      subst hke
      simp [hmem]

/-- Counterexample for C4: with one persisted tuple and an rng that always
samples it, generate_dino performs 21 sampling attempts, not at most 20: the
loop only gives up after tries has been incremented past
MAX_GENERATION_ATTEMPTS, i.e. after the twenty-first duplicate sample. -/
theorem generate_dino_attempts_exceed_twenty :
    generate_dino [(("a_b", "b_m", "c_e") : PartTuple)]
        (fun _ => ("a_b", "b_m", "c_e")) = (none, 21) ∧
    ¬ (21 ≤ MAX_GENERATION_ATTEMPTS) := by
  constructor
  · rfl
  · decide

/-- C4 as amended: generate_dino performs at most 21 sampling attempts (the
loop exits only once tries exceeds MAX_GENERATION_ATTEMPTS = 20, so after
the twenty-first failed attempt); when every sample the rng can produce is a
duplicate of a persisted tuple it returns none, the ExhaustedAttempts
outcome, after exactly 21 attempts and persists nothing; and when some
attempt within the bound samples a non-duplicate tuple, the first such tuple
is returned. -/
theorem generate_dino_bounded_retries (db : List PartTuple)
    (sample : Nat → PartTuple) :
    ((generate_dino db sample).2 ≤ MAX_GENERATION_ATTEMPTS + 1) ∧
    ((∀ k, sample k ∈ db) →
      generate_dino db sample = (none, MAX_GENERATION_ATTEMPTS + 1)) ∧
    (∀ k, k ≤ MAX_GENERATION_ATTEMPTS → sample k ∉ db →
      (∀ j, j < k → sample j ∈ db) →
      generate_dino db sample = (some (sample k), k + 1)) := by
  refine ⟨?_, ?_, ?_⟩
  · have := generateDinoLoop_attempts_le db sample MAX_GENERATION_ATTEMPTS 0
    simpa [generate_dino] using this
  · intro hdup
    have := generateDinoLoop_all_dup db sample hdup MAX_GENERATION_ATTEMPTS 0
    simpa [generate_dino] using this
  · intro k hk hfresh hj
    exact generateDinoLoop_first_fresh db sample MAX_GENERATION_ATTEMPTS 0 k
      (Nat.zero_le k) (by omega) hfresh (fun j _ hjk => hj j hjk)

/-- Witness for C4: an empty table makes the very first sample fresh, and an
always-duplicate rng exhausts after 21 attempts. -/
theorem generate_dino_bounded_retries_witness :
    generate_dino [] (fun _ => ("a_b", "b_m", "c_e")) =
      (some ("a_b", "b_m", "c_e"), 1) ∧
    generate_dino [(("x_b", "y_m", "z_e") : PartTuple)]
        (fun _ => ("x_b", "y_m", "z_e")) = (none, MAX_GENERATION_ATTEMPTS + 1) :=
  ⟨(generate_dino_bounded_retries [] (fun _ => ("a_b", "b_m", "c_e"))).2.2 0
      (by decide) (by simp) (by omega),
   (generate_dino_bounded_retries [(("x_b", "y_m", "z_e") : PartTuple)]
      (fun _ => ("x_b", "y_m", "z_e"))).2.1 (by simp)⟩

/-! ## Dino name generation (commands.rs, generate_dino_name, lines 388-405) -/

/-- From str replace with the empty replacement string, specialised to the
two-character patterns used in generate_dino_name: removes every
non-overlapping occurrence of the pattern, scanning left to right. Strings
are modelled as lists of ASCII characters, so byte positions coincide with
list positions. -/
def removePat2 (a b : Char) : List Char → List Char
  | [] => []
  | [c] => [c]
  | c :: d :: rest =>
    if c = a ∧ d = b then removePat2 a b rest
    else c :: removePat2 a b (d :: rest)

/-- From generate_dino_name (commands.rs 388-405), taking the file stems of
the three chosen parts. After removing the category markers, body_end,
mouth_start and eyes_start are computed with unsigned arithmetic; the
subtractions mouth.len() - 3 and eyes.len() - 3 panic on underflow in a
debug build and in a release build wrap so that the slice start 3 (resp. 6)
exceeds the string length and the slicing panics; either way the call panics
exactly when one of those two lengths is below 3, modelled as none. -/
def generate_dino_name (body_stem mouth_stem eyes_stem : List Char) :
    Option (List Char) :=
  let body := removePat2 '_' 'b' body_stem
  let mouth := removePat2 '_' 'm' mouth_stem
  let eyes := removePat2 '_' 'e' eyes_stem
  if mouth.length < 3 ∨ eyes.length < 3 then none
  else
    let body_end := min 3 body.length
    let mouth_start := min 3 (mouth.length - 3)
    let eyes_start := min 6 (eyes.length - 3)
    some (body.take body_end ++ mouth.drop mouth_start ++ eyes.drop eyes_start)

/-- C10: generate_dino_name panics exactly on short mouth or eyes stems. If
the mouth stem with the _m marker removed, or the eyes stem with the _e
marker removed, is shorter than 3 characters the call fails (the modelled
panic), and whenever both of those, and the body stem with _b removed, have
length at least 3 the call returns the concatenation of the first 3
characters of the body part, the mouth part from offset
min 3 (length - 3) and the eyes part from offset min 6 (length - 3). -/
theorem generate_dino_name_total_iff_long_stems
    (body_stem mouth_stem eyes_stem : List Char) :
    ((removePat2 '_' 'm' mouth_stem).length < 3 ∨
        (removePat2 '_' 'e' eyes_stem).length < 3 →
      generate_dino_name body_stem mouth_stem eyes_stem = none) ∧
    (3 ≤ (removePat2 '_' 'b' body_stem).length →
      3 ≤ (removePat2 '_' 'm' mouth_stem).length →
      3 ≤ (removePat2 '_' 'e' eyes_stem).length →
      generate_dino_name body_stem mouth_stem eyes_stem =
        some ((removePat2 '_' 'b' body_stem).take 3 ++
          (removePat2 '_' 'm' mouth_stem).drop
            (min 3 ((removePat2 '_' 'm' mouth_stem).length - 3)) ++
          (removePat2 '_' 'e' eyes_stem).drop
            (min 6 ((removePat2 '_' 'e' eyes_stem).length - 3)))) := by
  constructor
  · intro h
    simp only [generate_dino_name]
    rw [if_pos h]
  · intro hb hm he
    simp only [generate_dino_name]
    rw [if_neg (by omega)]
    have : min 3 (removePat2 '_' 'b' body_stem).length = 3 := by omega
    rw [this]

/-- Witness for C10 at concrete stems: cool_b, tasty_m, shifty_e give the
name coostyfty, while the short mouth stem a_m makes the call panic. -/
theorem generate_dino_name_total_iff_long_stems_witness :
    generate_dino_name
      [Char.mk 99 (by decide), Char.mk 111 (by decide), Char.mk 111 (by decide),
       Char.mk 108 (by decide), Char.mk 95 (by decide), Char.mk 98 (by decide)]
      [Char.mk 116 (by decide), Char.mk 97 (by decide), Char.mk 115 (by decide),
       Char.mk 116 (by decide), Char.mk 121 (by decide), Char.mk 95 (by decide),
       Char.mk 109 (by decide)]
      [Char.mk 115 (by decide), Char.mk 104 (by decide), Char.mk 105 (by decide),
       Char.mk 102 (by decide), Char.mk 116 (by decide), Char.mk 121 (by decide),
       Char.mk 95 (by decide), Char.mk 101 (by decide)] =
      some [Char.mk 99 (by decide), Char.mk 111 (by decide), Char.mk 111 (by decide),
        Char.mk 115 (by decide), Char.mk 116 (by decide), Char.mk 121 (by decide),
        Char.mk 102 (by decide), Char.mk 116 (by decide), Char.mk 121 (by decide)] ∧
    generate_dino_name
      [Char.mk 99 (by decide), Char.mk 95 (by decide), Char.mk 98 (by decide)]
      [Char.mk 97 (by decide), Char.mk 95 (by decide), Char.mk 109 (by decide)]
      [Char.mk 115 (by decide), Char.mk 104 (by decide), Char.mk 105 (by decide),
       Char.mk 102 (by decide), Char.mk 116 (by decide), Char.mk 121 (by decide),
       Char.mk 95 (by decide), Char.mk 101 (by decide)] = none := by
  constructor
  · have h :=
      (generate_dino_name_total_iff_long_stems
        [Char.mk 99 (by decide), Char.mk 111 (by decide), Char.mk 111 (by decide),
         Char.mk 108 (by decide), Char.mk 95 (by decide), Char.mk 98 (by decide)]
        [Char.mk 116 (by decide), Char.mk 97 (by decide), Char.mk 115 (by decide),
         Char.mk 116 (by decide), Char.mk 121 (by decide), Char.mk 95 (by decide),
         Char.mk 109 (by decide)]
        [Char.mk 115 (by decide), Char.mk 104 (by decide), Char.mk 105 (by decide),
         Char.mk 102 (by decide), Char.mk 116 (by decide), Char.mk 121 (by decide),
         Char.mk 95 (by decide), Char.mk 101 (by decide)]).2
        (by decide) (by decide) (by decide)
    rw [h]
    decide
  · exact (generate_dino_name_total_iff_long_stems
      [Char.mk 99 (by decide), Char.mk 95 (by decide), Char.mk 98 (by decide)]
      [Char.mk 97 (by decide), Char.mk 95 (by decide), Char.mk 109 (by decide)]
      [Char.mk 115 (by decide), Char.mk 104 (by decide), Char.mk 105 (by decide),
       Char.mk 102 (by decide), Char.mk 116 (by decide), Char.mk 121 (by decide),
       Char.mk 95 (by decide), Char.mk 101 (by decide)]).1 (by decide)

/-! ## Ordering of persistence and announcement (duel.rs run_duel, commands.rs
hatch) -/

/-- The externally visible steps of a resolved challenge, in the order the
straight-line source performs them. -/
inductive ResolvedAction
  | outcomeWrite
  | announce
  | commitTransaction
deriving Repr, DecidableEq, BEq

/-- From run_duel (duel.rs 78-116), resolved path in source order: the stats
updates execute inside the open transaction (duel.rs 83-108), the result
response announcing the outcome is sent (duel.rs 110-112), and only then
does transaction.commit run (duel.rs 114). -/
def run_duel_resolved_actions : List ResolvedAction :=
  [ResolvedAction.outcomeWrite, ResolvedAction.announce,
   ResolvedAction.commitTransaction]

/-- From hatch (commands.rs 141-157), successful path in source order:
insert_dino runs inside the open transaction (commands.rs 144-150),
send_dino_embed announces the new dino (commands.rs 153), and only then does
transaction.commit run (commands.rs 155). -/
def hatch_success_actions : List ResolvedAction :=
  [ResolvedAction.outcomeWrite, ResolvedAction.announce,
   ResolvedAction.commitTransaction]

/-- Counterexample for C5: on both resolved paths the transaction commit does
not precede the announcement; the result is announced first and the commit
is the last step, so persistence does not complete strictly before the
result is announced. -/
theorem commit_not_before_announce :
    ¬ (run_duel_resolved_actions.indexOf ResolvedAction.commitTransaction <
        run_duel_resolved_actions.indexOf ResolvedAction.announce) ∧
    ¬ (hatch_success_actions.indexOf ResolvedAction.commitTransaction <
        hatch_success_actions.indexOf ResolvedAction.announce) := by
  decide

/-- C5 as amended: on each resolved path the outcome is announced exactly
once, the database writes of the outcome are issued (inside the open
transaction) before the announcement, and the transaction commit happens
strictly after the announcement, as the final step. -/
theorem announce_between_write_and_commit :
    (run_duel_resolved_actions.count ResolvedAction.announce = 1 ∧
      run_duel_resolved_actions.indexOf ResolvedAction.outcomeWrite <
        run_duel_resolved_actions.indexOf ResolvedAction.announce ∧
      run_duel_resolved_actions.indexOf ResolvedAction.announce <
        run_duel_resolved_actions.indexOf ResolvedAction.commitTransaction) ∧
    (hatch_success_actions.count ResolvedAction.announce = 1 ∧
      hatch_success_actions.indexOf ResolvedAction.outcomeWrite <
        hatch_success_actions.indexOf ResolvedAction.announce ∧
      hatch_success_actions.indexOf ResolvedAction.announce <
        hatch_success_actions.indexOf ResolvedAction.commitTransaction) := by
  decide

/-! ## Fragment pools (commands.rs setup_dinos 53-75 and choose_parts
351-378) -/

/-- The DinoParts struct (commands.rs 28-34), with each part kept as its file
stem (the file name and the stem determine each other, the extension being
fixed) and the derived display name. -/
structure DinoParts where
  body : List Char
  mouth : List Char
  eyes : List Char
  name : List Char
deriving Repr, DecidableEq

/-- The Fragments pools (commands.rs 21-26), with each part kept as its file
stem, modelled as a list of characters. -/
structure Fragments where
  bodies : List (List Char)
  mouths : List (List Char)
  eyes : List (List Char)
deriving Repr, DecidableEq

/-- From str ends_with as used in setup_dinos, for the two-character category
suffixes. -/
def stemEndsWith (a b : Char) (s : List Char) : Bool :=
  List.isSuffixOf [a, b] s

/-- From setup_dinos (commands.rs 53-75): partitions the file stems found in
the fragment directory by their suffix; other entries are skipped. The only
expect calls concern directory reading, outside this model: the function
performs no emptiness check on the pools and always succeeds, so startup
completes even when a pool is empty. -/
def setup_dinos (stems : List (List Char)) : Fragments :=
  { bodies := stems.filter (stemEndsWith '_' 'b')
    mouths := stems.filter (stemEndsWith '_' 'm')
    eyes := stems.filter (stemEndsWith '_' 'e') }

/-- Modelled from the spec: the pool-loading behaviour the claim asserts,
with startup failing loudly (none) when any of the three pools is empty.
This is the spec-side definition, to be compared with setup_dinos as
implemented. -/
def setup_dinos_spec (stems : List (List Char)) : Option Fragments :=
  let f := setup_dinos stems
  if f.bodies = [] ∨ f.mouths = [] ∨ f.eyes = [] then none else some f

/-- From SliceRandom choose as used in choose_parts: returns none on an
empty slice and otherwise a uniformly chosen element, modelled by reducing
the rng draw modulo the pool size. -/
def sliceChoose (l : List (List Char)) (i : Nat) : Option (List Char) :=
  if l.isEmpty then none else l.get? (i % l.length)

/-- From choose_parts (commands.rs 351-378): picks one element of each pool
— each of the three expect calls panics when its pool is empty, modelled as
none — and then computes parts.name = generate_dino_name(parts) (commands.rs
376), whose panic on a mouth or eyes stem shorter than 3 characters after
marker removal also propagates out of choose_parts, likewise modelled as
none. The rng is modelled by one draw per pool. -/
def choose_parts (fragments : Fragments) (ib im ie : Nat) :
    Option DinoParts :=
  match sliceChoose fragments.bodies ib, sliceChoose fragments.mouths im,
      sliceChoose fragments.eyes ie with
  | some b, some m, some e =>
    match generate_dino_name b m e with
    | some n => some { body := b, mouth := m, eyes := e, name := n }
    | none => none
  | _, _, _ => none

/-- Counterexample for C9: with no body fragment on disk (stems happy_m and
shifty_e only), startup does not fail — setup_dinos is total and returns
empty pools where the spec-side loader would fail — and a generation request
still runs, reaching choose_parts, which is where the failure (the expect
panic) actually happens. -/
theorem empty_pool_passes_startup :
    (setup_dinos [['h', 'a', 'p', 'p', 'y', '_', 'm'],
      ['s', 'h', 'i', 'f', 't', 'y', '_', 'e']]).bodies = [] ∧
    setup_dinos_spec [['h', 'a', 'p', 'p', 'y', '_', 'm'],
      ['s', 'h', 'i', 'f', 't', 'y', '_', 'e']] = none ∧
    choose_parts (setup_dinos [['h', 'a', 'p', 'p', 'y', '_', 'm'],
      ['s', 'h', 'i', 'f', 't', 'y', '_', 'e']]) 0 0 0 = none := by
  refine ⟨by decide, by decide, by decide⟩

theorem sliceChoose_eq_none_iff (l : List (List Char)) (i : Nat) :
    sliceChoose l i = none ↔ l = [] := by
  cases l with
  | nil => simp [sliceChoose]
  | cons a t =>
    simp only [sliceChoose, List.isEmpty_cons, Bool.false_eq_true, if_false]
    constructor
    · intro h
      exfalso
      rw [List.get?_eq_none] at h
      have : i % (a :: t).length < (a :: t).length :=
        Nat.mod_lt _ (by simp)
      omega
    · intro h
      cases h

theorem sliceChoose_mem (l : List (List Char)) (i : Nat) (x : List Char)
    (h : sliceChoose l i = some x) : x ∈ l := by
  cases l with
  | nil => simp [sliceChoose] at h
  | cons a t =>
    simp only [sliceChoose, List.isEmpty_cons, Bool.false_eq_true,
      if_false] at h
    exact List.get?_mem h

/-- C9 as amended: setup_dinos performs no emptiness check and startup
succeeds even with an empty pool; the loud failure instead happens at
generation time, inside choose_parts. It fails on the expect panic when one
of the three pools it reads is empty; with all pools non-empty its result is
the Option.map equation below over the chosen stems, so it fails exactly
when the name derivation generate_dino_name panics on those stems, and a
successful call returns one member drawn from each pool together with the
derived name. -/
theorem choose_parts_failure_characterisation (stems : List (List Char))
    (ib im ie : Nat) :
    (((setup_dinos stems).bodies = [] ∨ (setup_dinos stems).mouths = [] ∨
        (setup_dinos stems).eyes = []) →
      choose_parts (setup_dinos stems) ib im ie = none) ∧
    (∀ b m e, sliceChoose (setup_dinos stems).bodies ib = some b →
      sliceChoose (setup_dinos stems).mouths im = some m →
      sliceChoose (setup_dinos stems).eyes ie = some e →
      choose_parts (setup_dinos stems) ib im ie =
        Option.map (fun n => { body := b, mouth := m, eyes := e, name := n })
          (generate_dino_name b m e)) ∧
    (∀ p, choose_parts (setup_dinos stems) ib im ie = some p →
      p.body ∈ (setup_dinos stems).bodies ∧
      p.mouth ∈ (setup_dinos stems).mouths ∧
      p.eyes ∈ (setup_dinos stems).eyes ∧
      generate_dino_name p.body p.mouth p.eyes = some p.name) := by
  refine ⟨?_, ?_, ?_⟩
  · intro h
    unfold choose_parts
    rcases hb : sliceChoose (setup_dinos stems).bodies ib with _ | b <;>
      rcases hm : sliceChoose (setup_dinos stems).mouths im with _ | m <;>
        rcases he : sliceChoose (setup_dinos stems).eyes ie with _ | e <;>
          try rfl
    exfalso
    rcases h with h | h | h
    · rw [(sliceChoose_eq_none_iff _ ib).mpr h] at hb; cases hb
    · rw [(sliceChoose_eq_none_iff _ im).mpr h] at hm; cases hm
    · rw [(sliceChoose_eq_none_iff _ ie).mpr h] at he; cases he
  · intro b m e hb hm he
    unfold choose_parts
    rw [hb, hm, he]
    rcases hn : generate_dino_name b m e with _ | n <;> simp [hn]
  · intro p hp
    unfold choose_parts at hp
    rcases hb : sliceChoose (setup_dinos stems).bodies ib with _ | b <;>
      rcases hm : sliceChoose (setup_dinos stems).mouths im with _ | m <;>
        rcases he : sliceChoose (setup_dinos stems).eyes ie with _ | e <;>
          rw [hb, hm, he] at hp <;> try cases hp
    dsimp only at hp
    rcases hn : generate_dino_name b m e with _ | n <;> rw [hn] at hp
    · cases hp
    cases hp
    exact ⟨sliceChoose_mem _ _ _ hb, sliceChoose_mem _ _ _ hm,
      sliceChoose_mem _ _ _ he, hn⟩

/-- Witness for C9: with the fragments cool_b, tasty_m and shifty_e on disk,
generation succeeds: each chosen part belongs to its pool and the carried
name is the one generate_dino_name derives from the chosen stems. -/
theorem choose_parts_failure_characterisation_witness :
    (['c', 'o', 'o', 'l', '_', 'b'] : List Char) ∈
      (setup_dinos [['c', 'o', 'o', 'l', '_', 'b'], ['t', 'a', 's', 't', 'y', '_', 'm'], ['s', 'h', 'i', 'f', 't', 'y', '_', 'e']]).bodies ∧
    (['t', 'a', 's', 't', 'y', '_', 'm'] : List Char) ∈
      (setup_dinos [['c', 'o', 'o', 'l', '_', 'b'], ['t', 'a', 's', 't', 'y', '_', 'm'], ['s', 'h', 'i', 'f', 't', 'y', '_', 'e']]).mouths ∧
    (['s', 'h', 'i', 'f', 't', 'y', '_', 'e'] : List Char) ∈
      (setup_dinos [['c', 'o', 'o', 'l', '_', 'b'], ['t', 'a', 's', 't', 'y', '_', 'm'], ['s', 'h', 'i', 'f', 't', 'y', '_', 'e']]).eyes ∧
    generate_dino_name ['c', 'o', 'o', 'l', '_', 'b'] ['t', 'a', 's', 't', 'y', '_', 'm'] ['s', 'h', 'i', 'f', 't', 'y', '_', 'e'] =
      some ['c', 'o', 'o', 's', 't', 'y', 'f', 't', 'y'] :=
  (choose_parts_failure_characterisation
      [['c', 'o', 'o', 'l', '_', 'b'], ['t', 'a', 's', 't', 'y', '_', 'm'], ['s', 'h', 'i', 'f', 't', 'y', '_', 'e']] 0 0 0).2.2
    { body := ['c', 'o', 'o', 'l', '_', 'b'], mouth := ['t', 'a', 's', 't', 'y', '_', 'm'], eyes := ['s', 'h', 'i', 'f', 't', 'y', '_', 'e'], name := ['c', 'o', 'o', 's', 't', 'y', 'f', 't', 'y'] }
    (by decide)

/-! ## Interleaved hatch sessions and tuple uniqueness (claim C1) -/

theorem get?_set_self {α : Type} (l : List α) (i : Nat) (x : α)
    (hi : i < l.length) : (l.set i x).get? i = some x := by
  induction l generalizing i with
  | nil => simp at hi
  | cons a t ih =>
    cases i with
    | zero => rfl
    | succ n => simpa using ih n (by simpa using hi)

theorem get?_set_other {α : Type} (l : List α) (i j : Nat) (x : α)
    (hij : i ≠ j) : (l.set i x).get? j = l.get? j := by
  induction l generalizing i j with
  | nil => rfl
  | cons a t ih =>
    cases i with
    | zero =>
      cases j with
      | zero => exact absurd rfl hij
      | succ m => rfl
    | succ n =>
      cases j with
      | zero => rfl
      | succ m => simpa using ih n m (by omega)

/-- The part tuple of a candidate or persisted dino, the combination
compared by are_parts_duplicate (commands.rs 335-349). -/
def tupleOf (p : DinoParts) : List Char × List Char × List Char :=
  (p.body, p.mouth, p.eyes)

/-- The phase of one hatch task with respect to the Dino table: idle before
generate_dino returns, ready p once generate_dino has returned the candidate
p (its duplicate check passed against the table as it was then), done once
insert_dino and the surrounding transaction commit have persisted p, and
rolledBack when the INSERT failed on the UNIQUE constraint of Dino.name, so
the error propagated before transaction.commit and the transaction was
rolled back with nothing persisted. -/
inductive HatchSession
  | idle
  | ready (p : DinoParts)
  | done
  | rolledBack
deriving Repr, DecidableEq

/-- The shared persisted Dino rows and the per-task phases. -/
structure HatchState where
  db : List DinoParts
  sessions : List HatchSession
deriving Repr, DecidableEq

/-- The two steps of a hatch call that touch the shared table. check i p is
generate_dino returning p for task i: by commands.rs 320-333 this only
happens when the tuple of p is absent from the table at that moment
(are_parts_duplicate was false), and by choose_parts (commands.rs 376) every
candidate carries name = generate_dino_name of its stems. commitDino i is
insert_dino plus the transaction commit (commands.rs 141-155): the INSERT
(commands.rs 477-489) fails when the name is already taken — the spec schema
declares Dino.name UNIQUE — in which case the error propagates before
transaction.commit and nothing is persisted; otherwise the row is
appended. -/
inductive HatchEvent
  | check (i : Nat) (p : DinoParts)
  | commitDino (i : Nat)
deriving Repr, DecidableEq

def hatchStep (s : HatchState) : HatchEvent → Option HatchState
  | HatchEvent.check i p =>
    match s.sessions.get? i with
    | some HatchSession.idle =>
      if generate_dino_name p.body p.mouth p.eyes = some p.name then
        if tupleOf p ∈ s.db.map tupleOf then none
        else some { s with sessions := s.sessions.set i (HatchSession.ready p) }
      else none
    | _ => none
  | HatchEvent.commitDino i =>
    match s.sessions.get? i with
    | some (HatchSession.ready p) =>
      if p.name ∈ s.db.map DinoParts.name then
        some { s with sessions := s.sessions.set i HatchSession.rolledBack }
      else
        some { db := s.db ++ [p],
               sessions := s.sessions.set i HatchSession.done }
    | _ => none

def hatchRun (s : HatchState) (events : List HatchEvent) : Option HatchState :=
  events.foldlM hatchStep s

/-- The initial state: empty table, n hatch tasks before generation. -/
def hatchInit (n : Nat) : HatchState :=
  { db := [], sessions := List.replicate n HatchSession.idle }

/-- The inductive invariant behind C1: persisted names are pairwise distinct
(every commit inserts under the UNIQUE constraint), and every persisted row
and every in-flight candidate carries the name generate_dino_name derives
from its stems. -/
def HatchInv (s : HatchState) : Prop :=
  (s.db.map DinoParts.name).Nodup ∧
  (∀ p ∈ s.db, generate_dino_name p.body p.mouth p.eyes = some p.name) ∧
  (∀ i p, s.sessions.get? i = some (HatchSession.ready p) →
    generate_dino_name p.body p.mouth p.eyes = some p.name)

theorem tuple_nodup_of_name_nodup (db : List DinoParts)
    (hname : (db.map DinoParts.name).Nodup)
    (hcoh : ∀ p ∈ db, generate_dino_name p.body p.mouth p.eyes = some p.name) :
    (db.map tupleOf).Nodup := by
  induction db with
  | nil => simp
  | cons p rest ih =>
    simp only [List.map_cons, List.nodup_cons] at hname ⊢
    obtain ⟨hp, hrest⟩ := hname
    refine ⟨?_, ih hrest (fun q hq => hcoh q (List.mem_cons_of_mem _ hq))⟩
    intro hmem
    rw [List.mem_map] at hmem
    obtain ⟨q, hq, htq⟩ := hmem
    have h1 := hcoh p (List.mem_cons_self _ _)
    have h2 := hcoh q (List.mem_cons_of_mem _ hq)
    have hbq : q.body = p.body := congrArg Prod.fst htq
    have hmq : q.mouth = p.mouth := congrArg (fun x => x.2.1) htq
    have heq : q.eyes = p.eyes := congrArg (fun x => x.2.2) htq
    rw [hbq, hmq, heq, h1] at h2
    have hqp : q.name = p.name := (Option.some_inj.mp h2).symm
    exact hp (List.mem_map.mpr ⟨q, hq, hqp⟩)

theorem hatchStep_inv (s s2 : HatchState) (e : HatchEvent)
    (hinv : HatchInv s) (hstep : hatchStep s e = some s2) : HatchInv s2 := by
  obtain ⟨hname, hcoh, hsess⟩ := hinv
  cases e with
  | check i p =>
    simp only [hatchStep] at hstep
    cases hget : s.sessions.get? i with
    | none => rw [hget] at hstep; cases hstep
    | some ph =>
      rw [hget] at hstep
      have hlen : i < s.sessions.length := by
        by_contra hge
        rw [List.get?_eq_none.mpr (by omega)] at hget
        cases hget
      cases ph <;> try cases hstep
      by_cases hn : generate_dino_name p.body p.mouth p.eyes = some p.name
      · rw [if_pos hn] at hstep
        by_cases hdup : tupleOf p ∈ s.db.map tupleOf
        · rw [if_pos hdup] at hstep
          cases hstep
        · rw [if_neg hdup] at hstep
          cases hstep
          refine ⟨hname, hcoh, ?_⟩
          intro j q hj
          rcases eq_or_ne i j with rfl | hij
          · rw [get?_set_self _ _ _ hlen] at hj
            cases hj
            exact hn
          · rw [get?_set_other _ _ _ _ hij] at hj
            exact hsess j q hj
      · rw [if_neg hn] at hstep
        cases hstep
  | commitDino i =>
    simp only [hatchStep] at hstep
    cases hget : s.sessions.get? i with
    | none => rw [hget] at hstep; cases hstep
    | some ph =>
      rw [hget] at hstep
      have hlen : i < s.sessions.length := by
        by_contra hge
        rw [List.get?_eq_none.mpr (by omega)] at hget
        cases hget
      cases ph with
      | idle => cases hstep
      | done => cases hstep
      | rolledBack => cases hstep
      | ready p =>
        dsimp only at hstep
        by_cases htaken : p.name ∈ s.db.map DinoParts.name
        · rw [if_pos htaken] at hstep
          cases hstep
          refine ⟨hname, hcoh, ?_⟩
          intro j q hj
          rcases eq_or_ne i j with rfl | hij
          · rw [get?_set_self _ _ _ hlen] at hj
            cases hj
          · rw [get?_set_other _ _ _ _ hij] at hj
            exact hsess j q hj
        · rw [if_neg htaken] at hstep
          cases hstep
          have hpn : generate_dino_name p.body p.mouth p.eyes = some p.name :=
            hsess i p hget
          refine ⟨?_, ?_, ?_⟩
          · rw [List.map_append, List.map_cons, List.map_nil,
              List.nodup_append]
            refine ⟨hname, List.nodup_singleton _, ?_⟩
            intro a ha hmem
            simp only [List.mem_singleton] at hmem
            exact htaken (hmem ▸ ha)
          · intro q hq
            rw [List.mem_append] at hq
            rcases hq with hq | hq
            · exact hcoh q hq
            · simp only [List.mem_singleton] at hq
              cases hq
              exact hpn
          · intro j q hj
            rcases eq_or_ne i j with rfl | hij
            · rw [get?_set_self _ _ _ hlen] at hj
              cases hj
            · rw [get?_set_other _ _ _ _ hij] at hj
              exact hsess j q hj

theorem hatchRun_inv_aux (events : List HatchEvent) (s : HatchState)
    (hinv : HatchInv s) :
    ∀ s2, hatchRun s events = some s2 → HatchInv s2 := by
  induction events generalizing s with
  | nil =>
    intro s2 h
    simp only [hatchRun, List.foldlM_nil, Option.pure_def,
      Option.some_inj] at h
    exact h ▸ hinv
  | cons e es ih =>
    intro s2 h
    simp only [hatchRun, List.foldlM_cons] at h
    cases hstep : hatchStep s e with
    | none => rw [hstep] at h; cases h
    | some s1 =>
      rw [hstep] at h
      exact ih s1 (hatchStep_inv s s1 e hinv hstep) s2 h

theorem hatchInit_inv (n : Nat) : HatchInv (hatchInit n) := by
  refine ⟨by simp [hatchInit], by simp [hatchInit], ?_⟩
  intro i p hp
  exfalso
  have hmem := List.get?_mem hp
  have := List.eq_of_mem_replicate hmem
  cases this

/-- C1: for every number of hatch tasks and every interleaving of their
table-touching steps, no two persisted rows ever share a (body, mouth, eyes)
tuple. generate_dino only returns a candidate whose tuple is absent at check
time and the insert is only reached with such a candidate (both built into
the check event); when two interleaved calls nevertheless reach the insert
with the same tuple, the derived name — a deterministic function of the
tuple via generate_dino_name — collides with the first committed row, the
UNIQUE constraint on Dino.name makes the second INSERT fail before its
commit and the transaction rolls back, so the global uniqueness of part
tuples is an invariant of the persisted state, including under interleaved
concurrent calls. -/
theorem hatch_tuple_uniqueness (n : Nat) (events : List HatchEvent)
    (s : HatchState) (h : hatchRun (hatchInit n) events = some s) :
    (s.db.map tupleOf).Nodup := by
  have hinv := hatchRun_inv_aux events (hatchInit n) (hatchInit_inv n) s h
  exact tuple_nodup_of_name_nodup s.db hinv.1 hinv.2.1

/-- Witness for C1, on the interleaving where two hatch tasks both pass the
duplicate check for the same candidate before either inserts: the first
commit persists the row, the second hits the name constraint and rolls back,
and the final table holds a single row, so its tuple list is
duplicate-free. -/
theorem hatch_tuple_uniqueness_witness :
    (([{ body := ['c', 'o', 'o', 'l', '_', 'b'], mouth := ['t', 'a', 's', 't', 'y', '_', 'm'], eyes := ['s', 'h', 'i', 'f', 't', 'y', '_', 'e'], name := ['c', 'o', 'o', 's', 't', 'y', 'f', 't', 'y'] }] : List DinoParts).map tupleOf).Nodup :=
  hatch_tuple_uniqueness 2
    [HatchEvent.check 0 { body := ['c', 'o', 'o', 'l', '_', 'b'], mouth := ['t', 'a', 's', 't', 'y', '_', 'm'], eyes := ['s', 'h', 'i', 'f', 't', 'y', '_', 'e'], name := ['c', 'o', 'o', 's', 't', 'y', 'f', 't', 'y'] },
     HatchEvent.check 1 { body := ['c', 'o', 'o', 'l', '_', 'b'], mouth := ['t', 'a', 's', 't', 'y', '_', 'm'], eyes := ['s', 'h', 'i', 'f', 't', 'y', '_', 'e'], name := ['c', 'o', 'o', 's', 't', 'y', 'f', 't', 'y'] },
     HatchEvent.commitDino 0, HatchEvent.commitDino 1]
    { db := [{ body := ['c', 'o', 'o', 'l', '_', 'b'], mouth := ['t', 'a', 's', 't', 'y', '_', 'm'], eyes := ['s', 'h', 'i', 'f', 't', 'y', '_', 'e'], name := ['c', 'o', 'o', 's', 't', 'y', 'f', 't', 'y'] }], sessions := [HatchSession.done, HatchSession.rolledBack] }
    (by decide)

/-! ## The duel exclusivity flag (claim C2) -/

/-- The phase of one duel command with respect to the IN_PROGRESS flag:
notStarted before the load at duel.rs 34, passedCheck after loading false
but before the store at duel.rs 51, active while its challenge is open
(run_duel executing, challenge Unresolved or Accepted), rejected after
loading true and bailing with the already-in-progress reply, finished after
the unconditional store(false) at duel.rs 55. -/
inductive DuelSession
  | notStarted
  | passedCheck
  | active
  | rejected
  | finished
deriving Repr, DecidableEq

/-- The process-wide IN_PROGRESS flag and the per-command phases. -/
structure DuelState where
  in_progress : Bool
  sessions : List DuelSession
deriving Repr, DecidableEq

/-- The three atomic flag accesses a duel command performs, in source order:
load (duel.rs 34), the store of true (duel.rs 51) and the unconditional
store of false (duel.rs 55); between load and setFlag the command awaits the
cooldown query and the reply send, so other commands may interleave. -/
inductive DuelEvent
  | load (i : Nat)
  | setFlag (i : Nat)
  | clearFlag (i : Nat)
deriving Repr, DecidableEq

def duelStep (s : DuelState) : DuelEvent → Option DuelState
  | DuelEvent.load i =>
    match s.sessions.get? i with
    | some DuelSession.notStarted =>
      let outcome := if s.in_progress then DuelSession.rejected
        else DuelSession.passedCheck
      some { s with sessions := s.sessions.set i outcome }
    | _ => none
  | DuelEvent.setFlag i =>
    match s.sessions.get? i with
    | some DuelSession.passedCheck =>
      some { in_progress := true, sessions := s.sessions.set i DuelSession.active }
    | _ => none
  | DuelEvent.clearFlag i =>
    match s.sessions.get? i with
    | some DuelSession.active =>
      some { in_progress := false, sessions := s.sessions.set i DuelSession.finished }
    | _ => none

def duelRun (s : DuelState) (events : List DuelEvent) : Option DuelState :=
  events.foldlM duelStep s

/-- The initial state: flag false, n commands not yet started. -/
def duelInit (n : Nat) : DuelState :=
  { in_progress := false,
    sessions := List.replicate n DuelSession.notStarted }

/-- The number of commands whose challenge is currently active. -/
def activeCount (s : DuelState) : Nat :=
  (s.sessions.filter (fun x => x == DuelSession.active)).length

/-- Counterexample for C2: two interleaved duel commands both load the flag
as false before either stores true — the load at duel.rs 34 and the store at
duel.rs 51 are separate atomic operations with suspension points between
them, not one compare-and-set — and both challenges become active at once,
so at-most-one-active fails for this interleaving. -/
theorem interleaved_duels_both_active :
    duelRun (duelInit 2)
      [DuelEvent.load 0, DuelEvent.load 1,
       DuelEvent.setFlag 0, DuelEvent.setFlag 1] =
      some { in_progress := true, sessions := [DuelSession.active, DuelSession.active] } ∧
    ¬ (activeCount { in_progress := true, sessions := [DuelSession.active, DuelSession.active] } ≤ 1) := by
  exact ⟨rfl, by decide⟩

/-- The events of the amended model, in which a command checks and sets the
flag in one atomic step (a compare-and-set), as the spec prescribes for the
exclusivity flag; closing is the unconditional clear, unchanged. -/
inductive DuelAtomicEvent
  | openChallenge (i : Nat)
  | closeChallenge (i : Nat)
deriving Repr, DecidableEq

def duelAtomicStep (s : DuelState) : DuelAtomicEvent → Option DuelState
  | DuelAtomicEvent.openChallenge i =>
    match s.sessions.get? i with
    | some DuelSession.notStarted =>
      if s.in_progress then
        some { s with sessions := s.sessions.set i DuelSession.rejected }
      else
        some { in_progress := true,
               sessions := s.sessions.set i DuelSession.active }
    | _ => none
  | DuelAtomicEvent.closeChallenge i =>
    match s.sessions.get? i with
    | some DuelSession.active =>
      some { in_progress := false,
             sessions := s.sessions.set i DuelSession.finished }
    | _ => none

def duelAtomicRun (s : DuelState) (events : List DuelAtomicEvent) :
    Option DuelState :=
  events.foldlM duelAtomicStep s

/-- The exclusivity invariant: any two active challenges coincide, and the
flag is set exactly when some challenge is active. -/
def DuelInv (s : DuelState) : Prop :=
  (∀ i j, s.sessions.get? i = some DuelSession.active →
    s.sessions.get? j = some DuelSession.active → i = j) ∧
  (s.in_progress = true ↔ ∃ i, s.sessions.get? i = some DuelSession.active)

theorem duelAtomicStep_inv (s s2 : DuelState) (e : DuelAtomicEvent)
    (hinv : DuelInv s) (hstep : duelAtomicStep s e = some s2) : DuelInv s2 := by
  obtain ⟨huniq, hflag⟩ := hinv
  cases e with
  | openChallenge i =>
    simp only [duelAtomicStep] at hstep
    cases hget : s.sessions.get? i with
    | none => rw [hget] at hstep; cases hstep
    | some ph =>
      rw [hget] at hstep
      have hlen : i < s.sessions.length := by
        by_contra hge
        rw [List.get?_eq_none.mpr (by omega)] at hget
        cases hget
      cases ph <;> try cases hstep
      by_cases hip : s.in_progress
      · rw [if_pos hip] at hstep
        cases hstep
        constructor
        · intro a b ha hb
          simp only at ha hb
          rcases eq_or_ne i a with rfl | hai
          · rw [get?_set_self _ _ _ hlen] at ha
            cases ha
          rcases eq_or_ne i b with rfl | hbi
          · rw [get?_set_self _ _ _ hlen] at hb
            cases hb
          rw [get?_set_other _ _ _ _ hai] at ha
          rw [get?_set_other _ _ _ _ hbi] at hb
          exact huniq a b ha hb
        · simp only [hip, true_iff] at hflag ⊢
          obtain ⟨a, ha⟩ := hflag
          have hai : i ≠ a := by
            intro h
            rw [← h, hget] at ha
            cases ha
          refine ⟨a, ?_⟩
          rw [get?_set_other _ _ _ _ hai]
          exact ha
      · rw [if_neg hip] at hstep
        cases hstep
        have hnoact : ∀ a, ¬ s.sessions.get? a = some DuelSession.active := by
          intro a ha
          have : s.in_progress = true := hflag.mpr ⟨a, ha⟩
          exact hip this
        constructor
        · intro a b ha hb
          simp only at ha hb
          rcases eq_or_ne i a with rfl | hai
          · rcases eq_or_ne i b with rfl | hbi
            · rfl
            rw [get?_set_other _ _ _ _ hbi] at hb
            exact absurd hb (hnoact b)
          rw [get?_set_other _ _ _ _ hai] at ha
          exact absurd ha (hnoact a)
        · simp only [true_iff]
          exact ⟨i, get?_set_self _ _ _ hlen⟩
  | closeChallenge i =>
    simp only [duelAtomicStep] at hstep
    cases hget : s.sessions.get? i with
    | none => rw [hget] at hstep; cases hstep
    | some ph =>
      rw [hget] at hstep
      have hlen : i < s.sessions.length := by
        by_contra hge
        rw [List.get?_eq_none.mpr (by omega)] at hget
        cases hget
      cases ph <;> cases hstep
      constructor
      · intro a b ha hb
        simp only at ha hb
        rcases eq_or_ne i a with rfl | hai
        · rw [get?_set_self _ _ _ hlen] at ha
          cases ha
        rw [get?_set_other _ _ _ _ hai] at ha
        exact absurd (huniq a i ha hget).symm hai
      · simp only [Bool.false_eq_true, false_iff]
        rintro ⟨a, ha⟩
        rcases eq_or_ne i a with rfl | hai
        · rw [get?_set_self _ _ _ hlen] at ha
          cases ha
        rw [get?_set_other _ _ _ _ hai] at ha
        exact hai (huniq a i ha hget).symm

theorem duelAtomicRun_inv_aux (events : List DuelAtomicEvent) (s : DuelState)
    (hinv : DuelInv s) :
    ∀ s2, duelAtomicRun s events = some s2 → DuelInv s2 := by
  induction events generalizing s with
  | nil =>
    intro s2 h
    simp only [duelAtomicRun, List.foldlM_nil, Option.pure_def,
      Option.some_inj] at h
    exact h ▸ hinv
  | cons e es ih =>
    intro s2 h
    simp only [duelAtomicRun, List.foldlM_cons] at h
    cases hstep : duelAtomicStep s e with
    | none => rw [hstep] at h; cases h
    | some s1 =>
      rw [hstep] at h
      exact ih s1 (duelAtomicStep_inv s s1 e hinv hstep) s2 h

theorem duelInit_inv (n : Nat) : DuelInv (duelInit n) := by
  constructor
  · intro a b ha _
    exfalso
    have := List.get?_mem ha
    have := List.eq_of_mem_replicate this
    cases this
  · simp only [duelInit, Bool.false_eq_true, false_iff]
    rintro ⟨a, ha⟩
    have := List.get?_mem ha
    have := List.eq_of_mem_replicate this
    cases this

/-- C2 as amended: when opening a challenge checks and sets the flag in one
atomic step (a compare-and-set) instead of the separate load (duel.rs 34)
and store (duel.rs 51), then for every sequence of concurrent attempts, in
every reachable state any two active challenges coincide (at most one is
Unresolved or Accepted at a time) and the flag is set exactly when a
challenge is active — so it is false before the first attempt and again
after the last active challenge closes, the clear on close being
unconditional on every exit path exactly as in the source. -/
theorem atomic_duel_exclusivity (n : Nat) (events : List DuelAtomicEvent)
    (s : DuelState) (h : duelAtomicRun (duelInit n) events = some s) :
    (duelInit n).in_progress = false ∧
    (∀ i j, s.sessions.get? i = some DuelSession.active →
      s.sessions.get? j = some DuelSession.active → i = j) ∧
    (s.in_progress = true ↔ ∃ i, s.sessions.get? i = some DuelSession.active) := by
  have hinv := duelAtomicRun_inv_aux events (duelInit n) (duelInit_inv n) s h
  exact ⟨rfl, hinv.1, hinv.2⟩

/-- Witness for C2: out of two commands, the first opens and closes, then
the second opens; the run reaches the state where only the second challenge
is active, the initial flag is false and the final flag is set because a
challenge is active. -/
theorem atomic_duel_exclusivity_witness :
    (duelInit 2).in_progress = false ∧
    ({ in_progress := true, sessions := [DuelSession.finished, DuelSession.active] } : DuelState).in_progress = true :=
  ⟨(atomic_duel_exclusivity 2
      [DuelAtomicEvent.openChallenge 0, DuelAtomicEvent.closeChallenge 0,
       DuelAtomicEvent.openChallenge 1]
      { in_progress := true, sessions := [DuelSession.finished, DuelSession.active] } rfl).1,
   ((atomic_duel_exclusivity 2
      [DuelAtomicEvent.openChallenge 0, DuelAtomicEvent.closeChallenge 0,
       DuelAtomicEvent.openChallenge 1]
      { in_progress := true, sessions := [DuelSession.finished, DuelSession.active] } rfl).2.2).mpr
    ⟨1, rfl⟩⟩

end Twiggy
